import Mathlib

/-!
Shallow embedding of the llvm-locstats debug-location coverage utility
(llvm-locstats.cpp) and verification of its specification.

Modelling conventions:
* DWARF DIEs are modelled as a tree `Die` of attribute records `DieAttrs`
  with child lists; `Die.find(DW_AT_x)` presence tests become `Bool` fields,
  `DW_AT_location` carries its form (section offset resolving to a location
  list, or a single expression location) as `LocAttr`.
* `uint64_t` arithmetic is `Nat` with explicit wraparound modulo `2 ^ 64`
  (`u64add`, `u64sub`), matching C++ unsigned semantics.
* The `double` arithmetic of the source is modelled exactly: the quantities
  involved (`Covered`, `BytesInScope`, truncated percentages) are integers,
  so `100 * Covered / BytesInScope` truncated by the `(int)` cast is `Nat`
  division, and the running `TotalAverage` sum of integer percentages is a
  rational.  The one place where the source's floating-point computation is
  not a defined integer is `BytesInScope == 0` in the location-list branch:
  there the C++ code computes `100 * 0.0 / 0.0 = NaN` and then performs the
  undefined cast `(int)NaN`; the embedding returns `none` for that case, so
  `none` marks the undefined execution.
* `std::map<int, unsigned long>` becomes `Hist`: a set of present keys plus
  a total valuation; `operator[]` default-inserts the key.
-/

/-- DWARF tags used by the tool (`dwarf::DW_TAG_*`); `DW_TAG_null` is the
tag of an invalid parent die, `DW_TAG_other` stands for every other tag. -/
inductive Tag where
| DW_TAG_subprogram
| DW_TAG_lexical_block
| DW_TAG_inlined_subroutine
| DW_TAG_variable
| DW_TAG_formal_parameter
| DW_TAG_subroutine_type
| DW_TAG_compile_unit
| DW_TAG_null
| DW_TAG_other
deriving DecidableEq, Repr

/-- DWARF expression operations, as far as `IsEntryValue` inspects them. -/
inductive DwOp where
| DW_OP_entry_value
| DW_OP_GNU_entry_value
| DW_OP_other
deriving DecidableEq, Repr

/-- One entry of a debug-location list: `[Begin, End)` plus its expression
payload (`Entry.Loc`). -/
structure LocEntry where
  Begin : ℕ
  End : ℕ
  Loc : List DwOp
deriving DecidableEq, Repr

/-- The form of a `DW_AT_location` attribute.  `sectionOffset` is the case
where `FormValue->getAsSectionOffset()` succeeds; its argument is the result
of `getLocationListAtOffset` (`none` when no list lives at that offset).
`exprloc` is the single-location case where `getAsSectionOffset` fails. -/
inductive LocAttr where
| sectionOffset (list : Option (List LocEntry))
| exprloc
deriving DecidableEq, Repr

deriving instance DecidableEq for Except

/-- The attributes of one DIE that the tool reads. -/
structure DieAttrs where
  tag : Tag
  hasDeclaration : Bool
  hasArtificial : Bool
  hasExternal : Bool
  hasInline : Bool
  hasConstValue : Bool
  location : Option LocAttr
  lowPCAttr : Option ℕ
  ranges : Except Unit (List (ℕ × ℕ))
deriving DecidableEq, Repr

/-- A DIE: its attributes and its ordered children. -/
inductive Die where
| mk (attrs : DieAttrs) (children : List Die)

def Die.attrs : Die → DieAttrs
| .mk a _ => a

def Die.children : Die → List Die
| .mk _ cs => cs

/-- The four boolean command-line toggles. -/
structure Options where
  onlyFormalParameters : Bool
  onlyVariables : Bool
  ignoreInlined : Bool
  ignoreEntryValues : Bool
deriving DecidableEq, Repr

/-- `2 ^ 64`, the modulus of `uint64_t` arithmetic. -/
def W64 : ℕ := 2 ^ 64

/-- `uint64_t` addition. -/
def u64add (a b : ℕ) : ℕ := (a + b) % W64

/-- `uint64_t` subtraction (wraps around on underflow). -/
def u64sub (a b : ℕ) : ℕ := (a % W64 + (W64 - b % W64)) % W64

/-- The `IsEntryValue` lambda: the entry's expression contains a
`DW_OP_entry_value` or `DW_OP_GNU_entry_value` operation. -/
def isEntryValue (loc : List DwOp) : Bool :=
  loc.any fun op =>
    op = DwOp.DW_OP_entry_value ∨ op = DwOp.DW_OP_GNU_entry_value

/-- The `Covered` accumulation loop over the location-list entries:
`Covered += Entry.End - Entry.Begin`, skipping entry-value entries when
`-ignore-entry-values` is set. -/
def computeCoveredBytes (opts : Options) (entries : List LocEntry) : ℕ :=
  entries.foldl
    (fun covered e =>
      if opts.ignoreEntryValues ∧ isEntryValue e.Loc then covered
      else u64add covered (u64sub e.End e.Begin))
    0

/-- `if (Covered > BytesInScope) Covered = BytesInScope;` — the wrong-
location-list clamp. -/
def clampCovered (covered bytesInScope : ℕ) : ℕ :=
  if covered > bytesInScope then bytesInScope else covered

/-- The coverage computation of `collectLocStatsForDie` (the value
`(int)Coverage` after the truncating cast), in priority order: constant
value, location attribute (list or single location), no location.
Returns `none` exactly when the source casts `NaN` to `int`
(location-list branch with `BytesInScope == 0`), which is undefined. -/
def coverageOf (d : DieAttrs) (bytesInScope : ℕ) (opts : Options) :
    Option ℕ :=
  if d.hasConstValue then some 100
  else
    match d.location with
    | some (LocAttr.sectionOffset list) =>
      let covered0 :=
        match list with
        | some entries => computeCoveredBytes opts entries
        | none => 0
      let covered := clampCovered covered0 bytesInScope
      if bytesInScope = 0 then none
      else some (100 * covered / bytesInScope)
    | some LocAttr.exprloc => some 100
    | none => some 0

/-- `static const int largest_cov_category = 12;` -/
def largest_cov_category : ℤ := 12

/-- The bucketing of a truncated percentage `CoverageRounded` into a
histogram key (`PercentageKey`). -/
def percentageKey (p : ℕ) : ℤ :=
  if p = 0 then 0
  else if p = 100 then largest_cov_category - 1
  else (p / 10 : ℕ) + 1

/-- `std::map<int, unsigned long>`: the set of present keys plus the stored
counts (absent keys read as the default `0`, as `operator[]` would insert). -/
structure Hist where
  keys : Finset ℤ
  val : ℤ → ℕ

/-- The initialization loop of `collectLocstats`: keys `0 .. 11`, all `0`. -/
def Hist.init : Hist :=
  { keys := Finset.Icc 0 (largest_cov_category - 1), val := fun _ => 0 }

/-- `LocStatistics[k]++`: `operator[]` default-inserts the key, then the
count is incremented. -/
def Hist.incr (h : Hist) (k : ℤ) : Hist :=
  { keys := insert k h.keys, val := Function.update h.val k (h.val k + 1) }

/-- The accumulator threaded through the traversal: the histogram, the
processed-variable count `CumulNumOfVars` and the `double TotalAverage`. -/
structure LocState where
  hist : Hist
  numVars : ℕ
  totalAverage : ℚ

/-- `collectLocStatsForDie`: filter the die, evaluate its coverage, bucket
it and update the totals.  `parentTag` is `Die.getParent().getTag()`.
Returns `some st` unchanged when a filter fires, `none` when the coverage
cast is undefined. -/
def collectLocStatsForDie (parentTag : Tag) (d : DieAttrs)
    (bytesInScope : ℕ) (opts : Options) (st : LocState) : Option LocState :=
  if d.tag = Tag.DW_TAG_variable ∧ opts.onlyFormalParameters then some st
  else if d.tag = Tag.DW_TAG_formal_parameter ∧ opts.onlyVariables then
    some st
  else if d.hasDeclaration ∨ d.hasArtificial then some st
  else if d.hasExternal ∧ d.location = none then some st
  else if d.tag = Tag.DW_TAG_formal_parameter ∧
      parentTag = Tag.DW_TAG_subroutine_type then some st
  else
    match coverageOf d bytesInScope opts with
    | none => none
    | some cov =>
      some
        { hist := st.hist.incr (percentageKey cov),
          numVars := st.numVars + 1,
          totalAverage := st.totalAverage + cov }

/-- `getLowPC`: first range's `LowPC` if any ranges are obtainable,
otherwise the `DW_AT_low_pc` attribute with default `0`. -/
def getLowPC (d : DieAttrs) : ℕ :=
  let ranges :=
    match d.ranges with
    | .ok rs => rs
    | .error _ => []
  match ranges with
  | r :: _ => r.1
  | [] => d.lowPCAttr.getD 0

mutual

/-- `collectStatsRecursive`: process one die, then its children.  For
function / inlined-function / lexical-block dies, a declaration flag, an
inline flag or unobtainable address ranges abandon the whole subtree
(the early `return` precedes the child loop); otherwise the scope context
is replaced by this die's low PC and summed range bytes.  Variable and
formal-parameter dies are delegated to `collectLocStatsForDie`.  Children
see the current die as their parent. -/
def collectStatsRecursive (opts : Options) (d : Die) (parentTag : Tag)
    (scopeLowPC bytesInScope : ℕ) (st : LocState) : Option LocState :=
  match d with
  | .mk a cs =>
    let tagOf := a.tag
    if tagOf = Tag.DW_TAG_subprogram ∨
        tagOf = Tag.DW_TAG_inlined_subroutine ∨
        tagOf = Tag.DW_TAG_lexical_block then
      if a.hasDeclaration then some st
      else if a.hasInline then some st
      else if opts.ignoreInlined ∧ tagOf = Tag.DW_TAG_inlined_subroutine then
        some st
      else
        match a.ranges with
        | .error _ => some st
        | .ok rangeList =>
          let bytesInThisScope :=
            rangeList.foldl (fun acc r => u64add acc (u64sub r.2 r.1)) 0
          collectStatsChildren opts cs tagOf (getLowPC a) bytesInThisScope st
    else if tagOf = Tag.DW_TAG_variable ∨
        tagOf = Tag.DW_TAG_formal_parameter then
      match collectLocStatsForDie parentTag a bytesInScope opts st with
      | none => none
      | some st1 =>
        collectStatsChildren opts cs tagOf scopeLowPC bytesInScope st1
    else
      collectStatsChildren opts cs tagOf scopeLowPC bytesInScope st

/-- The child loop of `collectStatsRecursive` (`Die.getFirstChild` /
`getSibling` iteration). -/
def collectStatsChildren (opts : Options) (ds : List Die) (parentTag : Tag)
    (scopeLowPC bytesInScope : ℕ) (st : LocState) : Option LocState :=
  match ds with
  | [] => some st
  | c :: rest =>
    match collectStatsRecursive opts c parentTag scopeLowPC bytesInScope st
      with
    | none => none
    | some st1 =>
      collectStatsChildren opts rest parentTag scopeLowPC bytesInScope st1

end

/-- `collectLocstats` without the output step: zero-initialize the
histogram and totals, then run the traversal once per compile-unit root
die with an empty scope context. -/
def collectLocstats (opts : Options) (cus : List Die) : Option LocState :=
  cus.foldlM
    (fun st cu => collectStatsRecursive opts cu Tag.DW_TAG_null 0 0 st)
    { hist := Hist.init, numVars := 0, totalAverage := 0 }

/-- `format_decimal(n, 8)`-style right-justified decimal rendering. -/
def format_decimal (n : ℕ) (width : ℕ) : String :=
  let s := Nat.repr n
  String.mk (List.replicate (width - s.length) ' ') ++ s

/-- The footer mean: `(int)std::round((TotalAverage/CumulNumOfVars * 100)
/ 100)`.  `round` on a nonnegative rational agrees with `std::round`
(half away from zero equals half up on nonnegatives). -/
def reportedMean (totalAverage : ℚ) (numVars : ℕ) : ℤ :=
  round (totalAverage / (numVars : ℚ) * 100 / 100)

/-- One table row: label, count, `(int)(count / (double)total * 100)`. -/
def locStatsRow (label : String) (pad : String) (count total : ℕ) :
    String :=
  "    " ++ label ++ pad ++ format_decimal count 8 ++ "        " ++
    format_decimal (count * 100 / total) 8 ++ "%\n"

/-- `outputLocStats`: the "No coverage recorded." message when no variable
was processed, otherwise the full fixed-width table with footer. -/
def outputLocStats (st : LocState) : String :=
  if st.numVars = 0 then "No coverage recorded.\n"
  else
    let sep := String.mk (List.replicate 49 '=') ++ "\n"
    let dash := String.mk (List.replicate 49 '-') ++ "\n"
    let midRows :=
      String.join ((List.range 9).map fun j =>
        let i := j + 2
        locStatsRow (Nat.repr ((i - 1) * 10 + 1) ++ ".." ++
          Nat.repr (i * 10 - 1)) "    " (st.hist.val i) st.numVars)
    sep ++ "           Debug Location Statistics\n" ++ sep ++
      "    cov%        samples        percentage\n" ++ dash ++
      locStatsRow "0" "         " (st.hist.val 0) st.numVars ++
      locStatsRow "1..9" "      " (st.hist.val 1) st.numVars ++
      midRows ++
      locStatsRow "100" "       " (st.hist.val 11) st.numVars ++
      sep ++
      "-the number of debug variables processed: " ++
      Nat.repr st.numVars ++ "\n" ++
      "-the average coverage per var: ~ " ++
      Int.repr (reportedMean st.totalAverage st.numVars) ++ "%\n" ++
      sep

/-- What one invocation of `main` does before (or instead of) the file
handling: which diagnostic is printed, whether the traversal stage is
reached, and the process exit status when it is decided by this prefix
(`none` while the run proceeds to file handling). -/
structure MainResult where
  printedError : Option String
  ranTraversal : Bool
  exitCode : Option ℕ
deriving DecidableEq, Repr

/-- The option-validation prefix of `main`: `-h`, missing input file, and
the mutually-exclusive `-only-formal-parameters` / `-only-variables`
check.  Note the incompatible-arguments branch executes `return 0;`. -/
def mainDispatch (help : Bool) (inputFilename : String) (opts : Options) :
    MainResult :=
  if help then
    { printedError := none, ranTraversal := false, exitCode := some 0 }
  else if inputFilename = "" then
    { printedError := some ("no input file"), ranTraversal := false,
      exitCode := some 1 }
  else if opts.onlyFormalParameters ∧ opts.onlyVariables then
    { printedError :=
        some ("incompatible arguments: specifying both " ++
          "-only-formal-parameters and -only-variables is not allowed."),
      ranTraversal := false, exitCode := some 0 }
  else
    { printedError := none, ranTraversal := true, exitCode := none }

/-! Concrete sample inputs used to exercise the definitions. -/

/-- All four toggles off. -/
def optsDefault : Options := ⟨false, false, false, false⟩

/-- Both restriction toggles on (the incompatible combination). -/
def optsBothOnly : Options := ⟨true, true, false, false⟩

/-- The zero-initialized accumulator, as `collectLocstats` builds it. -/
def emptyLocState : LocState := ⟨Hist.init, 0, 0⟩

/-- A plain local variable with a location list covering `[0,50)`. -/
def sampleListVar : DieAttrs :=
  { tag := Tag.DW_TAG_variable, hasDeclaration := false,
    hasArtificial := false, hasExternal := false, hasInline := false,
    hasConstValue := false,
    location := some (LocAttr.sectionOffset (some [⟨0, 50, []⟩])),
    lowPCAttr := none, ranges := Except.error () }

/-- A constant variable that also carries a location list. -/
def sampleConstVar : DieAttrs :=
  { tag := Tag.DW_TAG_variable, hasDeclaration := false,
    hasArtificial := false, hasExternal := false, hasInline := false,
    hasConstValue := true,
    location := some (LocAttr.sectionOffset (some [⟨0, 50, []⟩])),
    lowPCAttr := none, ranges := Except.error () }

/-- An artificial variable (filtered out before evaluation). -/
def sampleArtificialVar : DieAttrs :=
  { tag := Tag.DW_TAG_variable, hasDeclaration := false,
    hasArtificial := true, hasExternal := false, hasInline := false,
    hasConstValue := false, location := none, lowPCAttr := none,
    ranges := Except.error () }

/-- A subprogram die that is a forward declaration. -/
def sampleDeclFn : DieAttrs :=
  { tag := Tag.DW_TAG_subprogram, hasDeclaration := true,
    hasArtificial := false, hasExternal := false, hasInline := false,
    hasConstValue := false, location := none, lowPCAttr := none,
    ranges := Except.ok [(0, 100)] }

/-- A subprogram die whose address ranges resolve to the empty list. -/
def sampleEmptyRangesFn : DieAttrs :=
  { tag := Tag.DW_TAG_subprogram, hasDeclaration := false,
    hasArtificial := false, hasExternal := false, hasInline := false,
    hasConstValue := false, location := none, lowPCAttr := some 4096,
    ranges := Except.ok [] }

/-- A subprogram die with one 100-byte range. -/
def sampleFn : DieAttrs :=
  { tag := Tag.DW_TAG_subprogram, hasDeclaration := false,
    hasArtificial := false, hasExternal := false, hasInline := false,
    hasConstValue := false, location := none, lowPCAttr := some 0,
    ranges := Except.ok [(0, 100)] }

/-- A compile-unit root die. -/
def sampleCUAttrs : DieAttrs :=
  { tag := Tag.DW_TAG_compile_unit, hasDeclaration := false,
    hasArtificial := false, hasExternal := false, hasInline := false,
    hasConstValue := false, location := none, lowPCAttr := none,
    ranges := Except.error () }

/-! Helper lemmas shared by the claim proofs. -/

/-- The invariant maintained by the traversal: the histogram keys are
exactly `0 .. 11` and their counts sum to the processed-variable count. -/
def HistInv (st : LocState) : Prop :=
  st.hist.keys = Finset.Icc 0 (largest_cov_category - 1) ∧
    (∑ k ∈ Finset.Icc (0 : ℤ) (largest_cov_category - 1), st.hist.val k) =
      st.numVars

theorem clampCovered_le_scope (covered b : ℕ) :
    clampCovered covered b ≤ b := by
  unfold clampCovered
  split
  · exact le_rfl
  · omega

theorem coverageOf_le_100 {d : DieAttrs} {b : ℕ} {opts : Options} {c : ℕ}
    (h : coverageOf d b opts = some c) : c ≤ 100 := by
  unfold coverageOf at h
  split at h
  · injection h with h
    omega
  · split at h
    next list =>
      dsimp only at h
      split at h
      next => exact absurd h (by simp)
      next hb =>
        injection h with h
        subst h
        calc 100 * clampCovered _ b / b
            ≤ 100 * b / b := Nat.div_le_div_right
              (Nat.mul_le_mul_left 100 (clampCovered_le_scope _ b))
          _ = 100 := Nat.mul_div_cancel 100 (Nat.pos_of_ne_zero hb)
    next =>
      injection h with h
      omega
    next =>
      injection h with h
      omega

theorem percentageKey_mem_Icc : ∀ p : ℕ, p ≤ 100 →
    percentageKey p ∈ Finset.Icc (0 : ℤ) (largest_cov_category - 1) := by
  decide

theorem collectLocStatsForDie_histInv {pt : Tag} {d : DieAttrs} {b : ℕ}
    {opts : Options} {st st' : LocState} (hinv : HistInv st)
    (h : collectLocStatsForDie pt d b opts st = some st') : HistInv st' := by
  unfold collectLocStatsForDie at h
  split at h
  · simp only [Option.some.injEq] at h
    subst h
    exact hinv
  · split at h
    · simp only [Option.some.injEq] at h
      subst h
      exact hinv
    · split at h
      · simp only [Option.some.injEq] at h
        subst h
        exact hinv
      · split at h
        · simp only [Option.some.injEq] at h
          subst h
          exact hinv
        · split at h
          · simp only [Option.some.injEq] at h
            subst h
            exact hinv
          · split at h
            next => exact absurd h (by simp)
            next cov hcov =>
              simp only [Option.some.injEq] at h
              subst h
              obtain ⟨hkeys, hsum⟩ := hinv
              have hk : percentageKey cov ∈
                  Finset.Icc (0 : ℤ) (largest_cov_category - 1) :=
                percentageKey_mem_Icc cov (coverageOf_le_100 hcov)
              constructor
              · simp only [Hist.incr, hkeys]
                exact Finset.insert_eq_self.mpr hk
              · simp only [Hist.incr]
                rw [Finset.sum_update_of_mem hk,
                  Finset.sdiff_singleton_eq_erase, add_right_comm,
                  Finset.add_sum_erase _ st.hist.val hk, hsum]

mutual

theorem collectStatsRecursive_histInv (opts : Options) (d : Die) (pt : Tag)
    (l b : ℕ) (st st' : LocState) (hinv : HistInv st)
    (h : collectStatsRecursive opts d pt l b st = some st') : HistInv st' := by
  match d with
  | .mk a cs =>
    rw [collectStatsRecursive] at h
    dsimp only at h
    split at h
    · split at h
      · simp only [Option.some.injEq] at h
        subst h
        exact hinv
      · split at h
        · simp only [Option.some.injEq] at h
          subst h
          exact hinv
        · split at h
          · simp only [Option.some.injEq] at h
            subst h
            exact hinv
          · split at h
            next =>
              simp only [Option.some.injEq] at h
              subst h
              exact hinv
            next rs =>
              exact collectStatsChildren_histInv opts cs _ _ _ st st' hinv h
    · split at h
      · split at h
        next => exact absurd h (by simp)
        next st1 hst1 =>
          exact collectStatsChildren_histInv opts cs _ _ _ st1 st'
            (collectLocStatsForDie_histInv hinv hst1) h
      · exact collectStatsChildren_histInv opts cs _ _ _ st st' hinv h

theorem collectStatsChildren_histInv (opts : Options) (ds : List Die)
    (pt : Tag) (l b : ℕ) (st st' : LocState) (hinv : HistInv st)
    (h : collectStatsChildren opts ds pt l b st = some st') : HistInv st' := by
  match ds with
  | [] =>
    rw [collectStatsChildren] at h
    simp only [Option.some.injEq] at h
    subst h
    exact hinv
  | c :: rest =>
    rw [collectStatsChildren] at h
    split at h
    next => exact absurd h (by simp)
    next st1 hst1 =>
      exact collectStatsChildren_histInv opts rest pt l b st1 st'
        (collectStatsRecursive_histInv opts c pt l b st st1 hinv hst1) h

end

theorem collectLocstats_histInv_aux (opts : Options) :
    ∀ (cus : List Die) (st0 st : LocState), HistInv st0 →
      List.foldlM
        (fun st cu => collectStatsRecursive opts cu Tag.DW_TAG_null 0 0 st)
        st0 cus = some st →
      HistInv st := by
  intro cus
  induction cus with
  | nil =>
    intro st0 st h0 h
    simp only [List.foldlM] at h
    simp only [Option.pure_def, Option.some.injEq] at h
    subst h
    exact h0
  | cons c rest ih =>
    intro st0 st h0 h
    rw [List.foldlM_cons] at h
    obtain ⟨st1, hst1, h⟩ := Option.bind_eq_some.mp h
    exact ih st1 st
      (collectStatsRecursive_histInv opts c Tag.DW_TAG_null 0 0 st0 st1 h0
        hst1) h

/-- Claim C1 (refuted — code bug): for a variable that passes the filters,
has no constant value and whose location attribute resolves to a location
list, a scope of total byte size 0 does NOT yield coverage 0; the division
`Coverage = 100 * (double)Covered / BytesInScope` is not guarded.  The
clamp first forces `Covered = 0`, then the source computes `100 * 0.0 /
0.0 = NaN` and casts `NaN` to `int`, which is undefined — the embedding
yields `none` and in particular not the claimed `some 0`. -/
theorem zeroByteScope_division_not_guarded :
    coverageOf sampleListVar 0 optsDefault = none ∧
      collectLocStatsForDie Tag.DW_TAG_subprogram sampleListVar 0
        optsDefault emptyLocState = none ∧
      coverageOf sampleListVar 0 optsDefault ≠ some 0 :=
  ⟨rfl, rfl, by decide⟩

/-- Claim C2 (refuted — code bug): with both `-only-formal-parameters` and
`-only-variables` set, `main` prints the incompatibility diagnostic and
performs no traversal, but then executes `return 0;`, so the process exit
status is 0 — not the non-zero status the specification requires. -/
theorem bothOnlyFlags_exit_status :
    (mainDispatch false ("a.out") optsBothOnly).printedError =
        some ("incompatible arguments: specifying both " ++
          "-only-formal-parameters and -only-variables is not allowed.") ∧
      (mainDispatch false ("a.out") optsBothOnly).ranTraversal = false ∧
      (mainDispatch false ("a.out") optsBothOnly).exitCode = some 0 :=
  ⟨rfl, rfl, rfl⟩

/-- Claim C4: for every integer percentage `p ≤ 100` the bucketing maps
`p = 0` to category 0, `p = 100` to category 11, and any other `p` to
category `p / 10 + 1` (integer division); in particular 5 lands in
category 1, 10 in category 2 and 99 in category 10. -/
theorem percentageKey_boundaries :
    (∀ p : ℕ, p ≤ 100 →
      (p = 0 → percentageKey p = 0) ∧
      (p = 100 → percentageKey p = 11) ∧
      (p ≠ 0 → p ≠ 100 → percentageKey p = (p / 10 : ℕ) + 1)) ∧
    percentageKey 5 = 1 ∧ percentageKey 10 = 2 ∧ percentageKey 99 = 10 := by
  decide

/-- Witness for `percentageKey_boundaries` at a concrete percentage. -/
theorem percentageKey_boundaries_witness :
    percentageKey 57 = (57 / 10 : ℕ) + 1 :=
  (percentageKey_boundaries.1 57 (by decide)).2.2 (by decide) (by decide)

/-- Claim C6: when the summed sub-range lengths of a location list (after
any entry-value exclusion) exceed the scope's total byte size, the covered
byte count is clamped to exactly the scope size, never exceeds it, and the
evaluation still produces a coverage value (the anomaly is non-fatal). -/
theorem wrongLocationList_clamped (opts : Options) (d : DieAttrs)
    (entries : List LocEntry) (b : ℕ)
    (hc : d.hasConstValue = false)
    (hloc : d.location = some (LocAttr.sectionOffset (some entries)))
    (hb : b ≠ 0) :
    (computeCoveredBytes opts entries > b →
      clampCovered (computeCoveredBytes opts entries) b = b) ∧
      clampCovered (computeCoveredBytes opts entries) b ≤ b ∧
      coverageOf d b opts =
        some (100 * clampCovered (computeCoveredBytes opts entries) b / b) := by
  refine ⟨?_, clampCovered_le_scope _ b, ?_⟩
  · intro hgt
    unfold clampCovered
    rw [if_pos hgt]
  · unfold coverageOf
    rw [if_neg (by simp [hc]), hloc]
    dsimp only
    rw [if_neg hb]

/-- Witness for `wrongLocationList_clamped`: a single sub-range of 200
bytes in a 100-byte scope is clamped to 100 bytes (100% coverage). -/
theorem wrongLocationList_clamped_witness :
    (computeCoveredBytes optsDefault [⟨0, 200, []⟩] > 100 →
      clampCovered (computeCoveredBytes optsDefault [⟨0, 200, []⟩]) 100 =
        100) ∧
      clampCovered (computeCoveredBytes optsDefault [⟨0, 200, []⟩]) 100 ≤
        100 ∧
      coverageOf
        ⟨Tag.DW_TAG_variable, false, false, false, false, false,
          some (LocAttr.sectionOffset (some [⟨0, 200, []⟩])), none,
          Except.error ()⟩ 100 optsDefault =
        some (100 *
          clampCovered (computeCoveredBytes optsDefault [⟨0, 200, []⟩])
            100 / 100) :=
  wrongLocationList_clamped optsDefault
    ⟨Tag.DW_TAG_variable, false, false, false, false, false,
      some (LocAttr.sectionOffset (some [⟨0, 200, []⟩])), none,
      Except.error ()⟩ [⟨0, 200, []⟩] 100 rfl rfl (by decide)

/-- Claim C8: a variable or formal parameter that passes the filters and
has a constant-value attribute gets coverage 100, regardless of the
location attribute, and is bucketed at the top category. -/
theorem constValue_coverage_100 (pt : Tag) (d : DieAttrs) (b : ℕ)
    (opts : Options) (st : LocState)
    (h1 : ¬(d.tag = Tag.DW_TAG_variable ∧ opts.onlyFormalParameters))
    (h2 : ¬(d.tag = Tag.DW_TAG_formal_parameter ∧ opts.onlyVariables))
    (h3 : d.hasDeclaration = false) (h4 : d.hasArtificial = false)
    (h5 : ¬(d.hasExternal ∧ d.location = none))
    (h6 : ¬(d.tag = Tag.DW_TAG_formal_parameter ∧
      pt = Tag.DW_TAG_subroutine_type))
    (hc : d.hasConstValue = true) :
    coverageOf d b opts = some 100 ∧
      collectLocStatsForDie pt d b opts st =
        some ⟨st.hist.incr (percentageKey 100), st.numVars + 1,
          st.totalAverage + ((100 : ℕ) : ℚ)⟩ := by
  have hcov : coverageOf d b opts = some 100 := by
    unfold coverageOf
    rw [if_pos hc]
  refine ⟨hcov, ?_⟩
  unfold collectLocStatsForDie
  rw [if_neg h1, if_neg h2, if_neg (by simp [h3, h4]), if_neg h5, if_neg h6,
    hcov]

/-- Witness for `constValue_coverage_100`: a constant variable that also
carries a location list, inside a 0-byte scope — the constant-value branch
wins regardless. -/
theorem constValue_coverage_100_witness :
    coverageOf sampleConstVar 0 optsDefault = some 100 ∧
      collectLocStatsForDie Tag.DW_TAG_subprogram sampleConstVar 0
        optsDefault emptyLocState =
        some ⟨emptyLocState.hist.incr (percentageKey 100),
          emptyLocState.numVars + 1,
          emptyLocState.totalAverage + ((100 : ℕ) : ℚ)⟩ :=
  constValue_coverage_100 Tag.DW_TAG_subprogram sampleConstVar 0 optsDefault
    emptyLocState (by decide) (by decide) rfl rfl (by decide) (by decide)
    rfl

/-- Claim C9: every entity caught by one of the five pre-evaluation
filters leaves the accumulator untouched (not bucketed, not counted), and
a run whose processed-variable count is 0 reports exactly the
"No coverage recorded." message with no table. -/
theorem filtered_entity_not_counted :
    (∀ (pt : Tag) (d : DieAttrs) (b : ℕ) (opts : Options) (st : LocState),
      ((d.tag = Tag.DW_TAG_variable ∧ opts.onlyFormalParameters) ∨
        (d.tag = Tag.DW_TAG_formal_parameter ∧ opts.onlyVariables) ∨
        (d.hasDeclaration ∨ d.hasArtificial) ∨
        (d.hasExternal ∧ d.location = none) ∨
        (d.tag = Tag.DW_TAG_formal_parameter ∧
          pt = Tag.DW_TAG_subroutine_type)) →
      collectLocStatsForDie pt d b opts st = some st) ∧
    ∀ st : LocState, st.numVars = 0 →
      outputLocStats st = "No coverage recorded.\n" := by
  constructor
  · intro pt d b opts st h
    unfold collectLocStatsForDie
    split
    · rfl
    next hn1 =>
      split
      · rfl
      next hn2 =>
        split
        · rfl
        next hn3 =>
          split
          · rfl
          next hn4 =>
            split
            · rfl
            next hn5 =>
              rcases h with h | h | h | h | h
              · exact absurd h hn1
              · exact absurd h hn2
              · exact absurd h hn3
              · exact absurd h hn4
              · exact absurd h hn5
  · intro st h
    unfold outputLocStats
    rw [if_pos h]

/-- Witness for `filtered_entity_not_counted`: an artificial variable is
skipped, and the empty accumulator reports the no-coverage message. -/
theorem filtered_entity_not_counted_witness :
    collectLocStatsForDie Tag.DW_TAG_subprogram sampleArtificialVar 100
        optsDefault emptyLocState = some emptyLocState ∧
      outputLocStats emptyLocState = "No coverage recorded.\n" :=
  ⟨filtered_entity_not_counted.1 Tag.DW_TAG_subprogram sampleArtificialVar
      100 optsDefault emptyLocState
      (Or.inr (Or.inr (Or.inl (Or.inr (by decide))))),
    filtered_entity_not_counted.2 emptyLocState rfl⟩

/-- Claim C3: a function, inlined-function or lexical-block die that has
the declaration flag, has the inline flag, or whose address ranges cannot
be obtained is abandoned with its entire subtree — the traversal returns
the accumulator unchanged (no histogram increment, no count, no failure)
and the sibling loop continues with the remaining dies. -/
theorem abandoned_scope_subtree (opts : Options) (a : DieAttrs)
    (cs rest : List Die) (pt : Tag) (l b : ℕ) (st : LocState)
    (htag : a.tag = Tag.DW_TAG_subprogram ∨
      a.tag = Tag.DW_TAG_inlined_subroutine ∨
      a.tag = Tag.DW_TAG_lexical_block)
    (habandon : a.hasDeclaration = true ∨ a.hasInline = true ∨
      a.ranges = Except.error ()) :
    collectStatsRecursive opts (Die.mk a cs) pt l b st = some st ∧
      collectStatsChildren opts (Die.mk a cs :: rest) pt l b st =
        collectStatsChildren opts rest pt l b st := by
  have h1 : collectStatsRecursive opts (Die.mk a cs) pt l b st = some st := by
    rw [collectStatsRecursive]
    dsimp only
    rw [if_pos htag]
    by_cases hd : a.hasDeclaration = true
    · rw [if_pos hd]
    · rw [if_neg hd]
      by_cases hi : a.hasInline = true
      · rw [if_pos hi]
      · rw [if_neg hi]
        rcases habandon with h | h | h
        · exact absurd h hd
        · exact absurd h hi
        · split
          · rfl
          · rw [h]
  refine ⟨h1, ?_⟩
  conv_lhs => rw [collectStatsChildren]
  rw [h1]

/-- Witness for `abandoned_scope_subtree`: a forward-declared subprogram. -/
theorem abandoned_scope_subtree_witness :
    collectStatsRecursive optsDefault (Die.mk sampleDeclFn []) Tag.DW_TAG_null
        0 0 emptyLocState = some emptyLocState ∧
      collectStatsChildren optsDefault [Die.mk sampleDeclFn []]
          Tag.DW_TAG_null 0 0 emptyLocState =
        collectStatsChildren optsDefault [] Tag.DW_TAG_null 0 0
          emptyLocState :=
  abandoned_scope_subtree optsDefault sampleDeclFn [] [] Tag.DW_TAG_null 0 0
    emptyLocState (Or.inl rfl) (Or.inl rfl)

/-- Claim C10: a function, inlined-function or block die whose address
ranges resolve successfully to an empty list is not abandoned: its scope
byte size becomes 0 and its children are still visited against that
zero-byte scope. -/
theorem emptyRanges_scope_zero (opts : Options) (a : DieAttrs)
    (cs : List Die) (pt : Tag) (l b : ℕ) (st : LocState)
    (htag : a.tag = Tag.DW_TAG_subprogram ∨
      a.tag = Tag.DW_TAG_inlined_subroutine ∨
      a.tag = Tag.DW_TAG_lexical_block)
    (hd : a.hasDeclaration = false) (hi : a.hasInline = false)
    (hii : ¬(opts.ignoreInlined ∧ a.tag = Tag.DW_TAG_inlined_subroutine))
    (hr : a.ranges = Except.ok []) :
    collectStatsRecursive opts (Die.mk a cs) pt l b st =
      collectStatsChildren opts cs a.tag (getLowPC a) 0 st := by
  rw [collectStatsRecursive]
  dsimp only
  rw [if_pos htag, if_neg (by simp [hd]), if_neg (by simp [hi]),
    if_neg hii, hr]
  rfl

/-- Witness for `emptyRanges_scope_zero`: a subprogram with empty ranges
and one variable child. -/
theorem emptyRanges_scope_zero_witness :
    collectStatsRecursive optsDefault
        (Die.mk sampleEmptyRangesFn [Die.mk sampleListVar []])
        Tag.DW_TAG_null 0 0 emptyLocState =
      collectStatsChildren optsDefault [Die.mk sampleListVar []]
        sampleEmptyRangesFn.tag (getLowPC sampleEmptyRangesFn) 0
        emptyLocState :=
  emptyRanges_scope_zero optsDefault sampleEmptyRangesFn
    [Die.mk sampleListVar []] Tag.DW_TAG_null 0 0 emptyLocState
    (Or.inl rfl) rfl rfl (by decide) rfl

/-- Claim C5: after any run of the collection phase that completes, the
histogram keys are exactly the 12 categories `0 .. 11` (present even when
never incremented) and the sum of the 12 category counts equals the total
processed-variable count. -/
theorem histogram_sum_invariant (opts : Options) (cus : List Die)
    (st : LocState) (h : collectLocstats opts cus = some st) :
    st.hist.keys = Finset.Icc 0 (largest_cov_category - 1) ∧
      (∑ k ∈ Finset.Icc (0 : ℤ) (largest_cov_category - 1),
        st.hist.val k) = st.numVars := by
  rw [collectLocstats] at h
  exact collectLocstats_histInv_aux opts cus _ st ⟨rfl, by simp [Hist.init]⟩ h

/-- Witness for `histogram_sum_invariant`: a run over one compile unit
holding a 100-byte function with one variable covered on `[0,50)`. -/
theorem histogram_sum_invariant_witness :
    (⟨Hist.init.incr 6, 1, ((50 : ℕ) : ℚ)⟩ : LocState).hist.keys =
        Finset.Icc 0 (largest_cov_category - 1) ∧
      (∑ k ∈ Finset.Icc (0 : ℤ) (largest_cov_category - 1),
        (⟨Hist.init.incr 6, 1, ((50 : ℕ) : ℚ)⟩ : LocState).hist.val k) =
        (⟨Hist.init.incr 6, 1, ((50 : ℕ) : ℚ)⟩ : LocState).numVars :=
  histogram_sum_invariant optsDefault
    [Die.mk sampleCUAttrs [Die.mk sampleFn [Die.mk sampleListVar []]]]
    ⟨Hist.init.incr 6, 1, ((50 : ℕ) : ℚ)⟩
    (by simp [collectLocstats, collectStatsRecursive, collectStatsChildren,
      collectLocStatsForDie, coverageOf, computeCoveredBytes, clampCovered,
      percentageKey, sampleCUAttrs, sampleFn, sampleListVar, getLowPC,
      u64add, u64sub, W64, isEntryValue, optsDefault, largest_cov_category])

/-- Claim C7: in the location-list branch the per-variable percentage is
the truncation (floor) of the exact ratio `100 * covered / scope`, and
that same truncated integer is both bucketed and added to the running
total; the footer mean is `round(totalSum / count)` over those truncated
values (`TotalAverage / CumulNumOfVars * 100 / 100` cancels exactly). -/
theorem truncated_percentage_rounded_mean (pt : Tag) (d : DieAttrs)
    (b : ℕ) (opts : Options) (st : LocState) (entries : List LocEntry)
    (h1 : ¬(d.tag = Tag.DW_TAG_variable ∧ opts.onlyFormalParameters))
    (h2 : ¬(d.tag = Tag.DW_TAG_formal_parameter ∧ opts.onlyVariables))
    (h3 : d.hasDeclaration = false) (h4 : d.hasArtificial = false)
    (h5 : ¬(d.hasExternal ∧ d.location = none))
    (h6 : ¬(d.tag = Tag.DW_TAG_formal_parameter ∧
      pt = Tag.DW_TAG_subroutine_type))
    (hc : d.hasConstValue = false)
    (hloc : d.location = some (LocAttr.sectionOffset (some entries)))
    (hb : b ≠ 0) :
    (100 * clampCovered (computeCoveredBytes opts entries) b / b =
      ⌊((100 * clampCovered (computeCoveredBytes opts entries) b : ℕ) : ℚ) /
        (b : ℚ)⌋₊) ∧
    collectLocStatsForDie pt d b opts st =
      some ⟨st.hist.incr (percentageKey
          (100 * clampCovered (computeCoveredBytes opts entries) b / b)),
        st.numVars + 1,
        st.totalAverage +
          ((100 * clampCovered (computeCoveredBytes opts entries) b / b :
            ℕ) : ℚ)⟩ ∧
    ∀ (t : ℚ) (n : ℕ), reportedMean t n = round (t / (n : ℚ)) := by
  refine ⟨(Nat.floor_div_eq_div (α := ℚ) _ b).symm, ?_, ?_⟩
  · have hcov : coverageOf d b opts =
        some (100 * clampCovered (computeCoveredBytes opts entries) b / b) := by
      unfold coverageOf
      rw [if_neg (by simp [hc]), hloc]
      dsimp only
      rw [if_neg hb]
    unfold collectLocStatsForDie
    rw [if_neg h1, if_neg h2, if_neg (by simp [h3, h4]), if_neg h5,
      if_neg h6, hcov]
  · intro t n
    have harg : t / (n : ℚ) * 100 / 100 = t / (n : ℚ) := by ring
    rw [reportedMean, harg]

/-- Witness for `truncated_percentage_rounded_mean`: a variable covering
`[0,50)` of a 100-byte scope. -/
theorem truncated_percentage_rounded_mean_witness :
    (100 * clampCovered (computeCoveredBytes optsDefault [⟨0, 50, []⟩])
        100 / 100 =
      ⌊((100 * clampCovered (computeCoveredBytes optsDefault [⟨0, 50, []⟩])
          100 : ℕ) : ℚ) / ((100 : ℕ) : ℚ)⌋₊) ∧
    collectLocStatsForDie Tag.DW_TAG_subprogram sampleListVar 100
        optsDefault emptyLocState =
      some ⟨emptyLocState.hist.incr (percentageKey
          (100 * clampCovered (computeCoveredBytes optsDefault [⟨0, 50, []⟩])
            100 / 100)),
        emptyLocState.numVars + 1,
        emptyLocState.totalAverage +
          ((100 * clampCovered (computeCoveredBytes optsDefault [⟨0, 50, []⟩])
            100 / 100 : ℕ) : ℚ)⟩ ∧
    ∀ (t : ℚ) (n : ℕ), reportedMean t n = round (t / (n : ℚ)) :=
  truncated_percentage_rounded_mean Tag.DW_TAG_subprogram sampleListVar 100
    optsDefault emptyLocState [⟨0, 50, []⟩] (by decide) (by decide) rfl rfl
    (by decide) (by decide) rfl rfl (by decide)
